import Mathlib

/-!
Verification of the YouTube video summarizer pipeline (src/summarizer.py).

Python strings are modelled as `List Char` (a Python `str` is a sequence of
code points).  The external stage backends (yt-dlp, moviepy, the speech
backend and the transformers model) are opaque library calls; they are
modelled as parameters/oracles, while everything the repository's own code
does — chunking, filtering, joining, stage sequencing, short-circuiting,
scratch-directory lifecycle, report formatting — is translated faithfully.
-/

namespace YTS

/-! ### Summarization stage: `summarize_text` (lines 74–97)

`chunks = [text[i:i+max_chunk] for i in range(0, len(text), max_chunk)]`
with `max_chunk = 1024`.  Python's `range(0, stop, 1024)` produces
`ceil(stop / 1024)` indices `0, 1024, 2048, …`, and the slice
`text[i:i+1024]` is "drop `i`, take `1024`". -/

/-- Python `range(0, stop, 1024)` (line 83): the indices `1024*k` for
`k < ceil(stop/1024)`, where `ceil(stop/1024) = (stop + 1023) / 1024`. -/
def range1024 (stop : Nat) : List Nat :=
  (List.range ((stop + 1023) / 1024)).map (fun k => 1024 * k)

/-- Python slice `text[i:i+n]`. -/
def pySlice (text : List Char) (i n : Nat) : List Char :=
  (text.drop i).take n

/-- Line 83: `chunks = [text[i:i+max_chunk] for i in range(0, len(text), max_chunk)]`. -/
def chunksOf (text : List Char) : List (List Char) :=
  (range1024 text.length).map (fun i => pySlice text i 1024)

/-- Whitespace as stripped by Python `str.strip()` (ASCII range: space, tab,
newline, carriage return, vertical tab, form feed). -/
def isPySpace (c : Char) : Bool :=
  c = ' ' || c = '\t' || c = '\n' || c = '\r' || c = Char.ofNat 11 || c = Char.ofNat 12

/-- Python `str.strip()`: drop leading and trailing whitespace (line 87). -/
def pyStrip (cs : List Char) : List Char :=
  ((cs.dropWhile isPySpace).reverse.dropWhile isPySpace).reverse

/-- The loop of lines 85–92: walk the chunks in order and, for each chunk with
`len(chunk.strip()) > 50`, append the model's summary of that chunk.  The
summarization model call (lines 88–92) is opaque and abstracted as `model`. -/
def summariesOf (model : List Char → List Char) : List (List Char) → List (List Char)
  | [] => []
  | chunk :: rest =>
    if 50 < (pyStrip chunk).length then model chunk :: summariesOf model rest
    else summariesOf model rest

/-- `summarize_text` (lines 82–94): chunk, filter, summarize, and
`' '.join(summaries)` (modelled by `List.intercalate` with a single space).
The lazy initialization of the model (lines 77–79) is stateful and is
modelled separately by `stepSummarizer`. -/
def summarize_text (model : List Char → List Char) (text : List Char) : List Char :=
  List.intercalate [' '] (summariesOf model (chunksOf text))

/-! ### Basic chunking lemmas -/

theorem chunksOf_length (text : List Char) :
    (chunksOf text).length = (text.length + 1023) / 1024 := by
  simp [chunksOf, range1024]

theorem chunksOf_nil : chunksOf [] = [] := rfl

theorem chunksOf_cons (text : List Char) (h : text ≠ []) :
    chunksOf text = text.take 1024 :: chunksOf (text.drop 1024) := by
  have hlen : 0 < text.length := List.length_pos.mpr h
  have hceil : (text.length + 1023) / 1024
      = ((text.drop 1024).length + 1023) / 1024 + 1 := by
    simp only [List.length_drop]
    omega
  simp only [chunksOf, range1024, hceil, List.range_succ_eq_map]
  simp only [List.map_cons, List.map_map, Nat.mul_zero]
  congr 1
  apply List.map_congr_left
  intro a _
  simp only [Function.comp_apply, pySlice, List.drop_drop]
  congr 2
  omega

theorem chunksOf_flatten (text : List Char) : (chunksOf text).flatten = text := by
  suffices h : ∀ n (t : List Char), t.length ≤ n → (chunksOf t).flatten = t from
    h text.length text le_rfl
  intro n
  induction n with
  | zero =>
    intro t ht
    have : t = [] := List.length_eq_zero.mp (Nat.le_zero.mp ht)
    subst this
    rfl
  | succ n ih =>
    intro t ht
    match t with
    | [] => rfl
    | c :: cs =>
      rw [chunksOf_cons _ (List.cons_ne_nil c cs)]
      have hdrop : ((c :: cs).drop 1024).length ≤ n := by
        simp only [List.length_drop, List.length_cons]
        have : cs.length + 1 ≤ n + 1 := ht
        omega
      simp only [List.flatten_cons, ih _ hdrop]
      exact List.take_append_drop 1024 (c :: cs)

theorem chunksOf_getD (text : List Char) (i : Nat) :
    (chunksOf text).getD i [] = (text.drop (1024 * i)).take 1024 := by
  by_cases h : i < (text.length + 1023) / 1024
  · rw [List.getD_eq_getElem _ _ (by simpa [chunksOf_length] using h)]
    simp [chunksOf, range1024, pySlice]
  · have h1 : (chunksOf text).length ≤ i := by
      rw [chunksOf_length]; omega
    rw [List.getD_eq_default _ _ h1]
    have h2 : text.length ≤ 1024 * i := by
      have := Nat.not_lt.mp h
      omega
    rw [List.drop_eq_nil_of_le h2]
    rfl

/-- C2: for a transcript of length `L`, `summarize_text` splits it into exactly
`ceil(L / 1024) = (L + 1023) / 1024` contiguous chunks; chunk `i` is exactly
the 1024-character slice starting at offset `1024 * i` (so every boundary
falls at a multiple of 1024, split purely by character count); the chunks
concatenate back to the whole text (contiguous, no overlap, no gap); and the
empty transcript yields zero chunks. -/
theorem claim_C2 (text : List Char) :
    (chunksOf text).length = (text.length + 1023) / 1024
    ∧ (chunksOf text).flatten = text
    ∧ (∀ i : Nat, (chunksOf text).getD i [] = (text.drop (1024 * i)).take 1024)
    ∧ chunksOf [] = [] :=
  ⟨chunksOf_length text, chunksOf_flatten text, fun i => chunksOf_getD text i, rfl⟩

/-! ### The chunk filter and the join -/

theorem summariesOf_eq_filter_map (model : List Char → List Char)
    (l : List (List Char)) :
    summariesOf model l
      = (l.filter (fun c => decide (50 < (pyStrip c).length))).map model := by
  induction l with
  | nil => rfl
  | cons a l ih =>
    by_cases h : 50 < (pyStrip a).length
    · simp [summariesOf, List.filter_cons, h, ih]
    · simp [summariesOf, List.filter_cons, h, ih]

/-- Spec-side definition, following the spec's words for the refinement
comparison: the joined summary preserves chunk order and uses a single space
as the only separator between consecutive chunk summaries; compared below
with the code's `' '.join`. -/
def joinBySpace : List (List Char) → List Char
  | [] => []
  | [s] => s
  | s :: t :: rest => s ++ ' ' :: joinBySpace (t :: rest)

theorem intercalate_space_eq_joinBySpace (l : List (List Char)) :
    List.intercalate [' '] l = joinBySpace l := by
  induction l with
  | nil => rfl
  | cons s rest ih =>
    cases rest with
    | nil => simp [List.intercalate, joinBySpace]
    | cons t r =>
      have hstep : List.intercalate [' '] (s :: t :: r)
          = s ++ ' ' :: List.intercalate [' '] (t :: r) := by
        simp [List.intercalate, List.intersperse]
      rw [hstep, ih, joinBySpace]

/-- A concrete chunk of exactly 50 non-space characters. -/
def chunk50 : List Char := List.replicate 50 'a'

/-- A concrete text of 60 non-space characters (one chunk, stripped length 60). -/
def demoText : List Char := List.replicate 60 'b'

/-- C3 counterexample: the code keeps a chunk only when `len(chunk.strip()) > 50`
(line 87), so a chunk whose trimmed length is exactly 50 is skipped — it is
not summarized and the output is empty, contradicting the claim that it is
summarized and included. -/
theorem claim_C3_counterexample :
    (pyStrip chunk50).length = 50
    ∧ summariesOf (fun c => c) (chunksOf chunk50) = []
    ∧ summarize_text (fun c => c) chunk50 = [] := by decide

/-- C3 (amended): a chunk is skipped exactly when its whitespace-trimmed
length is at most 50 characters, and every chunk whose trimmed length is
strictly greater than 50 is summarized and included, in chunk order: the
summaries are precisely the model applied to the chunks that pass the
strict `> 50` test.  (A chunk of trimmed length exactly 50 is skipped.) -/
theorem claim_C3_amended (model : List Char → List Char) (text : List Char) :
    summariesOf model (chunksOf text)
      = ((chunksOf text).filter (fun c => decide (50 < (pyStrip c).length))).map model :=
  summariesOf_eq_filter_map model (chunksOf text)

/-- C4: every chunk whose stripped length is ≤ 50 is excluded from
summarization input — every chunk the model is actually invoked on (observed
by instrumenting with the identity model) has stripped length > 50 — and the
joined output is built only from the chunks that pass the `> 50` test, so a
short chunk contributes nothing to it. -/
theorem claim_C4 (model : List Char → List Char) (text : List Char) :
    ((summariesOf (fun c => c) (chunksOf text)).all
        (fun c => decide (50 < (pyStrip c).length))) = true
    ∧ summarize_text model text
      = List.intercalate [' ']
          (((chunksOf text).filter (fun c => decide (50 < (pyStrip c).length))).map model) := by
  constructor
  · rw [summariesOf_eq_filter_map]
    rw [List.map_id']
    rw [List.all_eq_true]
    intro c hc
    exact (List.mem_filter.mp hc).2
  · rw [summarize_text, summariesOf_eq_filter_map]

/-- C5: `summarize_text` returns the per-chunk summaries joined in original
chunk order with a single space as the only separator (the code's `' '.join`
agrees with the spec-side `joinBySpace`), and for any transcript shorter
than 1024 characters with stripped length > 50 it returns exactly the one
chunk's summary, with no joining artifacts. -/
theorem claim_C5 (model : List Char → List Char) (text : List Char) :
    summarize_text model text = joinBySpace (summariesOf model (chunksOf text))
    ∧ (text.length < 1024 → 50 < (pyStrip text).length →
        summarize_text model text = model text) := by
  constructor
  · exact intercalate_space_eq_joinBySpace _
  · intro hlen hstrip
    have hne : text ≠ [] := by
      intro h
      rw [h] at hstrip
      exact absurd hstrip (by decide)
    have hchunks : chunksOf text = [text] := by
      rw [chunksOf_cons text hne]
      rw [List.take_of_length_le (Nat.le_of_lt hlen)]
      rw [List.drop_eq_nil_of_le (Nat.le_of_lt hlen)]
      rfl
    rw [summarize_text, hchunks]
    simp [summariesOf, hstrip, List.intercalate]

/-- C5 witness: a concrete 60-character transcript is below 1024 characters,
has stripped length 60 > 50, and summarizes (with the identity model) to
exactly its own single chunk summary. -/
theorem claim_C5_witness :
    demoText.length < 1024 ∧ 50 < (pyStrip demoText).length
    ∧ summarize_text (fun c => c) demoText = demoText :=
  ⟨by decide, by decide,
    (claim_C5 (fun c => c) demoText).2 (by decide) (by decide)⟩

/-! ### The pipeline: `process_video` (lines 99–132)

The four external calls (yt-dlp, moviepy, the speech backend, and the model
inside `summarize_text`) are opaque; one job's outcomes for them are an
environment `Env`.  `process_video` is translated as a function of that
environment which also reports which stages were invoked (in order) and the
file-system operations performed, so that short-circuiting and the scratch
lifecycle are observable. -/

/-- The four pipeline stages. -/
inductive Stage
  | download
  | extract
  | transcribe
  | summarize
deriving DecidableEq

/-- Outcomes of the external stage calls for one job: `download_video`
yields a title on success (the video file name is derived from it, line 43)
or fails with `(None, None)`; `extract_audio` returns a success flag;
`transcribe_audio` yields the recognized text or `None`; `summarize_text`
yields the joined summary or `None` on an exception (line 97). -/
structure Env where
  download : Option (List Char)
  extract : Bool
  transcribe : Option (List Char)
  summarize : Option (List Char)

/-- The dict returned by `process_video` on success (lines 128–132); the
`summary` field holds exactly what `summarize_text` returned, possibly
`None`. -/
structure Result where
  title : List Char
  transcription : List Char
  summary : Option (List Char)
deriving DecidableEq

/-- A file inside a directory. -/
structure FsPath where
  dir : String
  base : List Char
deriving DecidableEq

/-- File-system events a job performs in the scratch directory. -/
inductive FsOp
  | write (p : FsPath)
  | removeTree (d : String)
deriving DecidableEq

/-- Effect of one file-system event on the set of existing files;
`removeTree d` deletes every file inside directory `d` (the semantics of
`TemporaryDirectory` cleanup). -/
def applyOp (fs : List FsPath) : FsOp → List FsPath
  | FsOp.write p => p :: fs
  | FsOp.removeTree d => fs.filter (fun p => decide (p.dir ≠ d))

def runOps (fs : List FsPath) : List FsOp → List FsPath
  | [] => fs
  | op :: rest => runOps (applyOp fs op) rest

def mp4ext : List Char := ".mp4".toList

/-- Line 114: `audio_file = temp_path / "audio.wav"`. -/
def audioName : List Char := "audio.wav".toList

/-- `process_video` (lines 99–132): run the four stages in order inside
`with tempfile.TemporaryDirectory() as temp_dir`, returning `None` as soon
as a stage fails (`if not video_file`, `if not self.extract_audio(...)`,
`if not text`), and otherwise the result dict.  Every `return` inside the
`with` block passes through the context-manager exit, which removes the
scratch tree — modelled as a trailing `removeTree` on every path.  The
value of `summarize_text` is never checked.  Returns the result, the list
of stages invoked in order, and the file-system operations performed. -/
def process_video (td : String) (env : Env) :
    Option Result × List Stage × List FsOp :=
  match env.download with
  | none => (none, [Stage.download], [FsOp.removeTree td])
  | some title =>
    let dlOps := [FsOp.write ⟨td, title ++ mp4ext⟩]
    if !env.extract then
      (none, [Stage.download, Stage.extract], dlOps ++ [FsOp.removeTree td])
    else
      let exOps := dlOps ++ [FsOp.write ⟨td, audioName⟩]
      match env.transcribe with
      | none =>
        (none, [Stage.download, Stage.extract, Stage.transcribe],
          exOps ++ [FsOp.removeTree td])
      | some text =>
        if text.isEmpty then
          (none, [Stage.download, Stage.extract, Stage.transcribe],
            exOps ++ [FsOp.removeTree td])
        else
          (some ⟨title, text, env.summarize⟩,
            [Stage.download, Stage.extract, Stage.transcribe, Stage.summarize],
            exOps ++ [FsOp.removeTree td])

/-! ### Concrete jobs used by counterexamples and witnesses -/

def td0 : String := "tmpdir"

def titleT : List Char := "video".toList

def textX : List Char := "hello world transcript".toList

def sumY : List Char := "short summary".toList

/-- A job whose first three stages succeed but whose summarization fails. -/
def envSummFail : Env :=
  { download := some titleT, extract := true, transcribe := some textX,
    summarize := none }

/-- A job whose every stage would fail. -/
def envAllFail : Env :=
  { download := none, extract := false, transcribe := none, summarize := none }

/-- A fully successful job. -/
def envOk : Env :=
  { download := some titleT, extract := true, transcribe := some textX,
    summarize := some sumY }

/-- A job whose transcription call succeeds but returns the empty string. -/
def envEmptyText : Env :=
  { download := some titleT, extract := true, transcribe := some [],
    summarize := some sumY }

/-- C1 counterexample: a job whose download, extraction and transcription all
succeed but whose summarization yields no summary is NOT discarded:
`process_video` returns a result dict with `summary = None`, because lines
126–132 never check the value returned by `summarize_text`.  The claim says
it returns no result at all. -/
theorem claim_C1_counterexample :
    envSummFail.transcribe = some textX
    ∧ envSummFail.summarize = none
    ∧ (process_video td0 envSummFail).1 ≠ none
    ∧ (process_video td0 envSummFail).1 = some ⟨titleT, textX, none⟩ := by
  decide

/-- C1 (amended): when download, extraction and transcription succeed (with
non-empty text) and summarization fails, `process_video` returns a result
whose `summary` field is `None`/absent — the title and transcription are
kept, and the job is not discarded. -/
theorem claim_C1_amended (td : String) (env : Env) (title text : List Char)
    (hd : env.download = some title) (he : env.extract = true)
    (ht : env.transcribe = some text) (hne : text ≠ [])
    (hs : env.summarize = none) :
    (process_video td env).1 = some ⟨title, text, none⟩ := by
  rcases env with ⟨d, e, t, s⟩
  dsimp only at hd he ht hs
  subst hd
  subst he
  subst ht
  subst hs
  have hempty : text.isEmpty = false := by
    cases text with
    | nil => exact absurd rfl hne
    | cons c cs => rfl
  simp [process_video, hempty]

theorem claim_C1_amended_witness :
    (process_video td0 envSummFail).1 = some ⟨titleT, textX, none⟩ :=
  claim_C1_amended td0 envSummFail titleT textX rfl rfl rfl (by decide) rfl

/-- C6: the pipeline short-circuits — if download fails, none of the later
stages is invoked and no result is produced; if extraction fails,
transcription and summarization are not invoked and no result is produced;
if transcription fails, summarization is not invoked and no result is
produced. -/
theorem claim_C6 (td : String) (env : Env) :
    (env.download = none →
        Stage.extract ∉ (process_video td env).2.1
        ∧ Stage.transcribe ∉ (process_video td env).2.1
        ∧ Stage.summarize ∉ (process_video td env).2.1
        ∧ (process_video td env).1 = none)
    ∧ (env.extract = false →
        Stage.transcribe ∉ (process_video td env).2.1
        ∧ Stage.summarize ∉ (process_video td env).2.1
        ∧ (process_video td env).1 = none)
    ∧ (env.transcribe = none →
        Stage.summarize ∉ (process_video td env).2.1
        ∧ (process_video td env).1 = none) := by
  rcases env with ⟨d, e, t, s⟩
  refine ⟨?_, ?_, ?_⟩
  · intro hd
    dsimp only at hd
    subst hd
    simp [process_video]
  · intro he
    dsimp only at he
    subst he
    cases d with
    | none => simp [process_video]
    | some title => simp [process_video]
  · intro ht
    dsimp only at ht
    subst ht
    cases d with
    | none => simp [process_video]
    | some title =>
      cases e with
      | false => simp [process_video]
      | true => simp [process_video]

theorem claim_C6_witness :
    (Stage.extract ∉ (process_video td0 envAllFail).2.1
      ∧ Stage.transcribe ∉ (process_video td0 envAllFail).2.1
      ∧ Stage.summarize ∉ (process_video td0 envAllFail).2.1
      ∧ (process_video td0 envAllFail).1 = none)
    ∧ (Stage.transcribe ∉ (process_video td0 envAllFail).2.1
      ∧ Stage.summarize ∉ (process_video td0 envAllFail).2.1
      ∧ (process_video td0 envAllFail).1 = none)
    ∧ (Stage.summarize ∉ (process_video td0 envAllFail).2.1
      ∧ (process_video td0 envAllFail).1 = none) :=
  ⟨(claim_C6 td0 envAllFail).1 rfl, (claim_C6 td0 envAllFail).2.1 rfl,
    (claim_C6 td0 envAllFail).2.2 rfl⟩

/-! ### Scratch-directory lifecycle (C8) -/

theorem runOps_append (fs : List FsPath) (l1 l2 : List FsOp) :
    runOps fs (l1 ++ l2) = runOps (runOps fs l1) l2 := by
  induction l1 generalizing fs with
  | nil => rfl
  | cons op rest ih => simp [runOps, ih]

theorem removeTree_clears (fs : List FsPath) (d : String) :
    ((fs.filter (fun p => decide (p.dir ≠ d))).all
        (fun p => decide (p.dir ≠ d))) = true := by
  rw [List.all_eq_true]
  intro p hp
  exact (List.mem_filter.mp hp).2

/-- C8: on every exit path of `process_video` — success and every failure,
including a failed extraction — no file remains in the scratch directory
after the job (the trailing `TemporaryDirectory` cleanup removes every file
written there), and the intermediate artifacts really are written there
beforehand: the downloaded video file whenever download succeeds, and the
extracted audio file whenever extraction is also reached and succeeds. -/
theorem claim_C8 (td : String) (env : Env) (fs0 : List FsPath)
    (title : List Char) :
    ((runOps fs0 (process_video td env).2.2).all
        (fun p => decide (p.dir ≠ td))) = true
    ∧ (env.download = some title →
        FsOp.write ⟨td, title ++ mp4ext⟩ ∈ (process_video td env).2.2)
    ∧ (env.download = some title → env.extract = true →
        FsOp.write ⟨td, audioName⟩ ∈ (process_video td env).2.2) := by
  rcases env with ⟨d, e, t, s⟩
  have hclear : ∀ (ops : List FsOp),
      ((runOps fs0 (ops ++ [FsOp.removeTree td])).all
          (fun p => decide (p.dir ≠ td))) = true := by
    intro ops
    rw [runOps_append]
    exact removeTree_clears (runOps fs0 ops) td
  refine ⟨?_, ?_, ?_⟩
  · cases d with
    | none => exact hclear []
    | some ti =>
      cases e with
      | false => exact hclear _
      | true =>
        cases t with
        | none => exact hclear _
        | some text =>
          have h := hclear [FsOp.write ⟨td, ti ++ mp4ext⟩, FsOp.write ⟨td, audioName⟩]
          by_cases htext : text.isEmpty
          · simpa [process_video, htext] using h
          · simpa [process_video, htext] using h
  · intro hd
    dsimp only at hd
    subst hd
    cases e with
    | false => simp [process_video]
    | true =>
      cases t with
      | none => simp [process_video]
      | some text =>
        by_cases htext : text.isEmpty <;> simp [process_video, htext]
  · intro hd he
    dsimp only at hd he
    subst hd
    subst he
    cases t with
    | none => simp [process_video]
    | some text =>
      by_cases htext : text.isEmpty <;> simp [process_video, htext]

theorem claim_C8_witness :
    ((runOps [] (process_video td0 envOk).2.2).all
        (fun p => decide (p.dir ≠ td0))) = true
    ∧ FsOp.write ⟨td0, titleT ++ mp4ext⟩ ∈ (process_video td0 envOk).2.2
    ∧ FsOp.write ⟨td0, audioName⟩ ∈ (process_video td0 envOk).2.2 :=
  ⟨(claim_C8 td0 envOk [] titleT).1,
    (claim_C8 td0 envOk [] titleT).2.1 rfl,
    (claim_C8 td0 envOk [] titleT).2.2 rfl rfl⟩

/-! ### Lazy model initialization (C7) -/

/-- The mutable `self.summarizer` attribute (line 29 sets it to `None`)
together with an instrumentation counter of how many times the
`pipeline("summarization", ...)` model-loading call on lines 78–79 has run;
a loaded model instance is identified by the counter value at load time. -/
structure SummarizerState where
  summarizer : Option Nat
  loadCount : Nat
deriving DecidableEq

/-- `__init__` (lines 27–29): `self.summarizer = None`, no load yet. -/
def initSummarizer : SummarizerState := ⟨none, 0⟩

/-- Lines 77–79, run once at the start of each `summarize_text` call: load
the model only when `self.summarizer is None`, otherwise keep the existing
instance untouched. -/
def stepSummarizer (st : SummarizerState) : SummarizerState :=
  match st.summarizer with
  | none => ⟨some st.loadCount, st.loadCount + 1⟩
  | some m => ⟨some m, st.loadCount⟩

theorem stepSummarizer_iterate (m : Nat) :
    stepSummarizer^[m + 1] initSummarizer = ⟨some 0, 1⟩ := by
  induction m with
  | zero => rfl
  | succ k ih =>
    rw [Function.iterate_succ_apply', ih]
    rfl

/-- C7: within one `YouTubeSummarizer` instance the model is loaded lazily,
at most once: after any positive number of `summarize_text` calls — in
particular across two consecutive jobs — the model-loading call has run
exactly once, and the instance in use is still the one created by the
first call (identity `0`). -/
theorem claim_C7 (n : Nat) (h : 1 ≤ n) :
    (stepSummarizer^[n] initSummarizer).loadCount = 1
    ∧ (stepSummarizer^[n] initSummarizer).summarizer = some 0 := by
  obtain ⟨m, rfl⟩ : ∃ m, n = m + 1 := ⟨n - 1, by omega⟩
  rw [stepSummarizer_iterate]
  exact ⟨rfl, rfl⟩

/-- C7 witness: two consecutive jobs, one load. -/
theorem claim_C7_witness :
    (stepSummarizer^[2] initSummarizer).loadCount = 1
    ∧ (stepSummarizer^[2] initSummarizer).summarizer = some 0 :=
  claim_C7 2 (by decide)

/-! ### The report file written by `main` (lines 135–159) -/

/-- Python f-string interpolation of the summary field on line 155:
`None` renders as the four characters `None`. -/
def pyShowOpt : Option (List Char) → List Char
  | none => "None".toList
  | some s => s

/-- The report text written by `main` (lines 153–156): concatenation of the
three f-string writes. -/
def reportContent (r : Result) : List Char :=
  ("Title: ".toList ++ r.title ++ "\n\n".toList)
    ++ ("Summary:\n".toList ++ pyShowOpt r.summary ++ "\n\n".toList)
    ++ ("Full Transcription:\n".toList ++ r.transcription)

/-- `main` (lines 145–157): the optional report-file write — `some` of the
path and content written when the job produced a result and `--output` was
given, `none` when no file is written. -/
def mainWrites (output : Option String) (result : Option Result) :
    Option (String × List Char) :=
  match result with
  | none => none
  | some r =>
    match output with
    | none => none
    | some path => some (path, reportContent r)

/-- Spec-side definition, following the spec's words for the refinement
comparison: three labeled sections in the given order, consecutive sections
separated by one blank line. -/
def specReport (title s transcription : List Char) : List Char :=
  List.intercalate ("\n\n".toList)
    [ "Title: ".toList ++ title,
      "Summary:\n".toList ++ s,
      "Full Transcription:\n".toList ++ transcription ]

/-- C9: when `--output` is given and the job succeeds (with a summary),
`main` writes exactly one file at that path whose text is the three labeled
sections in order — `Title: <title>`, blank line, `Summary:` followed by
the summary text, blank line, `Full Transcription:` followed by the
transcript — and when `--output` is omitted no file is written (nor is one
written when the job failed). -/
theorem claim_C9 (path : String) (title transcription s : List Char)
    (r : Option Result) :
    mainWrites (some path) (some ⟨title, transcription, some s⟩)
      = some (path, specReport title s transcription)
    ∧ mainWrites none r = none
    ∧ mainWrites (some path) none = none := by
  refine ⟨?_, ?_, rfl⟩
  · simp [mainWrites, reportContent, pyShowOpt, specReport, List.intercalate,
      List.intersperse]
  · cases r with
    | none => rfl
    | some r => rfl

/-- C10: a transcription call that returns the empty string is treated
exactly like a transcription failure: the `if not text` check on line 121
fires, `summarize_text` is never invoked, and `process_video` returns
`None`. -/
theorem claim_C10 (td : String) (env : Env)
    (h : env.transcribe = some []) :
    (process_video td env).1 = none
    ∧ Stage.summarize ∉ (process_video td env).2.1 := by
  rcases env with ⟨d, e, t, s⟩
  dsimp only at h
  subst h
  cases d with
  | none => simp [process_video]
  | some title =>
    cases e with
    | false => simp [process_video]
    | true => simp [process_video]

theorem claim_C10_witness :
    (process_video td0 envEmptyText).1 = none
    ∧ Stage.summarize ∉ (process_video td0 envEmptyText).2.1 :=
  claim_C10 td0 envEmptyText rfl

end YTS
